import Mathlib

/-!
# Verification of the voice-seed-vault task/recording progression engine

Shallow embedding of the core logic of the repository:
* the text normalisation, tokenisation and deduplication helpers of
  `supabase/functions/generate-task/index.ts` (`tokenize`, `jaccard`,
  `isTooSimilar`, `isNatural`, `makeFallbackCandidate`, `pickUniqueFallback`),
* the task-generation request pipeline of the same file (starter-task gate,
  recording-threshold gate with `force` override, AI / fallback persistence
  paths, progress reset),
* the database trigger `update_user_progress` and the referral trigger
  `award_referral_points` from `supabase/migrations/`, together with the
  relevant uniqueness constraints.

JavaScript strings are modelled as Lean `String`s (ASCII contents), JS numbers
used for the Jaccard ratio as `ℚ` (exact; for the token-set sizes that occur,
double rounding cannot flip the `≥ 0.8` comparison), SQL `INTEGER` columns as
`Int`, and `Math.random()` draws as an explicit choice oracle.
-/

/-! ## Character-level helpers (JS `toLowerCase`, `trim`, regex classes) -/

/-- ASCII lower-casing of one character, as JS `toLowerCase` acts on ASCII. -/
def lowerChar (c : Char) : Char :=
  if 'A' ≤ c ∧ c ≤ 'Z' then Char.ofNat (c.toNat + 32) else c

/-- The whitespace characters relevant here (JS `\s` restricted to the ASCII
whitespace actually occurring in the data). -/
def isSpaceCh (c : Char) : Bool :=
  c = ' ' || c = '\t' || c = '\n' || c = '\r'

/-- ASCII letter test. -/
def isAlphaCh (c : Char) : Bool :=
  ('A' ≤ c && c ≤ 'Z') || ('a' ≤ c && c ≤ 'z')

/-- ASCII digit test. -/
def isDigitCh (c : Char) : Bool :=
  '0' ≤ c && c ≤ '9'

/-- Characters kept by the `replace(/[^a-z0-9\s]/g, '')` step of `tokenize`
(the input is lower-cased first, so only lower-case letters survive). -/
def keepCh (c : Char) : Bool :=
  ('a' ≤ c && c ≤ 'z') || isDigitCh c || isSpaceCh c

/-- JS regex `\b` word characters (`[A-Za-z0-9_]`). -/
def isWordCh (c : Char) : Bool :=
  isAlphaCh c || isDigitCh c || c = Char.ofNat 95

/-- The apostrophe character, `'`. -/
def apoChar : Char := Char.ofNat 39

/-- The apostrophe as a one-character string. -/
def apoStr : String := String.singleton apoChar

/-- Drop leading whitespace. -/
def trimLeft (l : List Char) : List Char := l.dropWhile isSpaceCh

/-- JS `String.prototype.trim` on the character list. -/
def trimChars (l : List Char) : List Char :=
  (trimLeft (trimLeft l).reverse).reverse

/-- JS `s.trim()`. -/
def trimStr (s : String) : String := String.mk (trimChars s.data)

/-- JS `s.toLowerCase()` (ASCII). -/
def lowerStr (s : String) : String := String.mk (s.data.map lowerChar)

/-- JS `s.trim().toLowerCase()`, the normalisation used for the used-text
pool and the exact-duplicate check. -/
def trimLower (s : String) : String := lowerStr (trimStr s)

/-! ## Tokenisation and splitting (JS `split(/\s+/)` with empty tokens
filtered out, as in `tokenize`) -/

/-- Split a character list at whitespace, returning the non-empty maximal
runs of non-whitespace characters; `acc` holds the (reversed) current run. -/
def splitAux : List Char → List Char → List (List Char)
  | [], acc => if acc.isEmpty then [] else [acc.reverse]
  | c :: cs, acc =>
    if isSpaceCh c then
      if acc.isEmpty then splitAux cs [] else acc.reverse :: splitAux cs []
    else
      splitAux cs (c :: acc)

/-- Whitespace-separated tokens of a string (`split(/\s+/).filter(Boolean)`). -/
def splitWs (s : String) : List String :=
  (splitAux s.data []).map String.mk

/-- `tokenize` from generate-task/index.ts:
`s.toLowerCase().replace(/[^a-z0-9\s]/g, '').split(/\s+/).filter(Boolean)`. -/
def tokenize (s : String) : List String :=
  (splitAux ((s.data.map lowerChar).filter keepCh) []).map String.mk

/-! ## Jaccard similarity and the deduplication filter -/

/-- `jaccard` from generate-task/index.ts: Jaccard similarity of the two
token sets (JS `Set`s; only the distinct-element counts matter), `0` when the
union is empty. -/
def jaccard (a b : String) : ℚ :=
  let A := (tokenize a).dedup
  let B := (tokenize b).dedup
  let inter := (A.filter (fun x => B.contains x)).length
  let uni := ((A ++ B).dedup).length
  if uni = 0 then 0 else mkRat inter uni

/-- `isTooSimilar` from generate-task/index.ts, with the surrounding
`usedTexts` pool made an explicit argument: exact match of the trimmed,
lower-cased candidate against the pool, or Jaccard similarity `≥ 0.8`
against any pool entry. -/
def isTooSimilar (used : List String) (candidate : String) : Bool :=
  used.contains (trimLower candidate) ||
    used.any (fun t => decide (mkRat 4 5 ≤ jaccard candidate t))

/-! ## Naturalness heuristics (`isNatural`, `NATURAL_BAD_PATTERNS`) -/

/-- Task categories (column `tasks.type`, values `word`/`phrase`/`sentence`). -/
inductive TaskType
  | word
  | phrase
  | sentence
deriving DecidableEq, Repr

/-- Task difficulties (column `tasks.difficulty`, constrained by the schema
CHECK to `beginner`/`intermediate`/`advanced`). -/
inductive Difficulty
  | beginner
  | intermediate
  | advanced
deriving DecidableEq, Repr

/-- `pat` occurs in `t` starting at `i` with JS `\b` word boundaries on both
sides (previous and following characters, if any, are non-word characters). -/
def hasBoundAt (t pat : List Char) (i : Nat) : Bool :=
  decide ((t.drop i).take pat.length = pat) &&
    (decide (i = 0) || !(isWordCh (t.getD (i - 1) ' '))) &&
    !(isWordCh (t.getD (i + pat.length) ' '))

/-- `pat` occurs somewhere in `t` surrounded by word boundaries; used to model
the `\b...\b` regexes of the source (which are case-insensitive, so callers
pass lower-cased text and lower-case patterns). -/
def hasBound (t pat : List Char) : Bool :=
  (List.range (t.length + 1)).any (fun i => hasBoundAt t pat i)

/-- `NATURAL_BAD_PATTERNS` from generate-task/index.ts, with the optional
`(ing)?` group expanded: each regex `/\bv(ing)? the food\b/i` becomes the two
literal lower-case patterns. -/
def naturalBadPatterns : List String :=
  [ "visit the food", "visiting the food",
    "repair the food", "repairing the food",
    "fix the food", "fixing the food",
    "teach the food", "teaching the food",
    "learn the food", "learning the food" ]

/-- Some bad pattern matches the (case-insensitively searched) text. -/
def hasBadPattern (t : String) : Bool :=
  naturalBadPatterns.any (fun p => hasBound (t.data.map lowerChar) p.data)

/-- The pronoun alternatives of the sentence check
`/\b(I|We|You|He|She|They|My|Your|Our)\b/i`. -/
def pronounWords : List String :=
  ["i", "we", "you", "he", "she", "they", "my", "your", "our"]

/-- `isNatural` from generate-task/index.ts. The input is trimmed first; an
empty trimmed text is never natural.  Word: no whitespace and
`^[A-Za-z][A-Za-z\-']{1,30}$`.  Phrase: 2–8 whitespace-separated tokens, no
square/curly brackets, no bad pattern.  Sentence: at least 4 tokens, at most
120 characters, terminal `.?!`, contains a personal pronoun, no bad
pattern. -/
def isNatural (text : String) (ty : TaskType) : Bool :=
  let t := trimStr text
  if t = "" then false
  else
    match ty with
    | .word =>
      (t.data.all (fun c => !(isSpaceCh c))) &&
        (match t.data with
         | [] => false
         | c :: rest =>
           isAlphaCh c && decide (1 ≤ rest.length) && decide (rest.length ≤ 30) &&
             rest.all (fun d => isAlphaCh d || d = '-' || d = apoChar))
    | .phrase =>
      let n := (splitWs t).length
      decide (2 ≤ n) && decide (n ≤ 8) &&
        (t.data.all (fun c =>
          !(c = Char.ofNat 123 || c = Char.ofNat 125 ||
            c = Char.ofNat 91 || c = Char.ofNat 93))) &&
        !(hasBadPattern t)
    | .sentence =>
      let n := (splitWs t).length
      decide (4 ≤ n) && decide (t.data.length ≤ 120) &&
        (match t.data.getLast? with
         | some c => c = '.' || c = '?' || c = '!'
         | none => false) &&
        (pronounWords.any (fun p => hasBound (t.data.map lowerChar) p.data)) &&
        !(hasBadPattern t)

/-! ## Curated fallback generation (`makeFallbackCandidate`,
`pickUniqueFallback`) -/

/-- The word pool of `makeFallbackCandidate`. -/
def fallbackWords : List String :=
  ["water", "family", "friend", "market", "school", "village", "river",
   "house", "doctor", "music", "morning", "evening", "bread", "money",
   "phone", "bus"]

/-- The phrase pool of `makeFallbackCandidate`. -/
def fallbackPhrases : List String :=
  ["How are you?",
   "Please wait a moment.",
   "Can you help me?",
   "I don" ++ apoStr ++ "t understand.",
   "What time is it?",
   "See you tomorrow.",
   "Where is the market?",
   "I would like some water.",
   "I" ++ apoStr ++ "m on my way.",
   "I need a doctor.",
   "Where can I buy food?",
   "Thank you very much."]

/-- The place pool of `makeFallbackCandidate`. -/
def fallbackPlaces : List String :=
  ["market", "school", "river", "farm", "village", "clinic", "bus station",
   "store", "house"]

/-- The time pool of `makeFallbackCandidate`. -/
def fallbackTimes : List String :=
  ["this morning", "this afternoon", "this evening", "tomorrow", "next week"]

/-- The sentence templates of `makeFallbackCandidate` (index, place, time). -/
def fallbackSentence (i : Nat) (pl tm : String) : String :=
  match i with
  | 0 => "I am going to the " ++ pl ++ " " ++ tm ++ "."
  | 1 => "My house is near the " ++ pl ++ "."
  | 2 => "We will meet at the " ++ pl ++ " tomorrow."
  | 3 => "The road to the " ++ pl ++ " is very long."
  | 4 => "She is working at the " ++ pl ++ " today."
  | 5 => "He is walking to the " ++ pl ++ " now."
  | _ => "They are waiting at the " ++ pl ++ "."

/-- A candidate produced by the fallback generator: text, description and
estimated time in minutes. -/
structure Candidate where
  text : String
  description : String
  estimated : ℚ
deriving DecidableEq, Repr

/-- One `Math.random()`-dependent run of `makeFallbackCandidate` consumes up
to three uniform draws; a draw picking one of `n` pool entries is modelled as
an arbitrary `Nat` taken modulo `n` (every concrete source behaviour
corresponds to a choice below `n`, and larger choices coincide with smaller
ones, so the set of modelled behaviours is exactly the source's). -/
abbrev Choice := Nat × Nat × Nat

/-- `makeFallbackCandidate` from generate-task/index.ts, with the captured
`usedTexts` / `usedWords` pools, the language name and the random draws made
explicit. -/
def makeFallbackCandidate (used usedWords : List String) (lang : String)
    (ty : TaskType) (ch : Choice) : Candidate :=
  match ty with
  | .word =>
    let filtered := fallbackWords.filter (fun w => !(usedWords.contains w))
    let pool := if filtered.isEmpty then fallbackWords else filtered
    let text := pool.getD (ch.1 % pool.length) ""
    { text := text,
      description :=
        "Translate the word \"" ++ text ++ "\" into " ++ lang ++ ".",
      estimated := 1 }
  | .phrase =>
    let pool := fallbackPhrases.filter (fun p => !(isTooSimilar used p))
    let src := if pool.isEmpty then fallbackPhrases else pool
    let text := src.getD (ch.1 % src.length) ""
    { text := text,
      description := "Translate this everyday expression into " ++ lang ++ ".",
      estimated := 2 }
  | .sentence =>
    let pl := fallbackPlaces.getD (ch.1 % fallbackPlaces.length) ""
    let tm := fallbackTimes.getD (ch.2.1 % fallbackTimes.length) ""
    let text := fallbackSentence (ch.2.2 % 7) pl tm
    { text := text,
      description := "Translate this practical sentence into " ++ lang ++ ".",
      estimated := 3 }

/-- The explicit randomness consumed by one `pickUniqueFallback` run: one
`Choice` per loop iteration (the source always performs `maxTries = 12`
iterations) plus the `Choice` of the final safety-net candidate. -/
structure Oracle where
  tries : List Choice
  final : Choice
deriving Repr

/-- The retry loop of `pickUniqueFallback`: accept the first candidate that is
not too similar and natural; if every try fails, build one more phrase
candidate, returning it if natural and the hard-coded thank-you candidate
otherwise. -/
def pickLoop (used usedWords : List String) (lang : String) (ty : TaskType)
    (final : Choice) : List Choice → Candidate
  | [] =>
    let f := makeFallbackCandidate used usedWords lang .phrase final
    if isNatural f.text .phrase then f
    else
      { text := "Thank you very much.",
        description := "Translate this everyday expression into " ++ lang ++ ".",
        estimated := 2 }
  | ch :: rest =>
    let c := makeFallbackCandidate used usedWords lang ty ch
    if !(isTooSimilar used c.text) && isNatural c.text ty then c
    else pickLoop used usedWords lang ty final rest

/-- `pickUniqueFallback` from generate-task/index.ts (`maxTries = 12`). -/
def pickUniqueFallback (used usedWords : List String) (lang : String)
    (ty : TaskType) (o : Oracle) : Candidate :=
  pickLoop used usedWords lang ty o.final (o.tries.take 12)

/-! ## The generate-task request pipeline (`serve` in
generate-task/index.ts) -/

/-- A row of `user_task_progress` restricted to the two fields the engine
reads and writes (`recordings_count INTEGER`, `can_generate_next BOOLEAN`). -/
structure Progress where
  recordings_count : Int
  can_generate_next : Bool
deriving DecidableEq, Repr

/-- One starter task as seen by the gate query: its id, its
`sequence_order`, and the user ids of the recordings joined onto it. -/
structure StarterTask where
  id : Nat
  seq : Int
  recordings : List Nat
deriving DecidableEq, Repr

/-- The resolved per-request context of one generate-task invocation:
`starterTasks` is the result of the starter query (ordered by
`sequence_order`), `taskCount` the number of tasks of the language,
`progress` the user's `user_task_progress` row if any, `recentTexts` the
`english_text` of the up-to-200 most recent tasks (most recent first), and
`randomType` / `randomDifficulty` the two random draws of the request. -/
structure GenCtx where
  user_id : Nat
  starterTasks : List StarterTask
  taskCount : Nat
  progress : Option Progress
  force : Bool
  recentTexts : List String
  langName : String
  randomType : TaskType
  randomDifficulty : Difficulty

/-- The outcome of the external AI call: HTTP non-OK, OK but unparsable
body, or a parsed JSON object (fields may be absent, as in JS). -/
inductive AiResult
  | httpFail
  | parseFail
  | ok (english_text : Option String) (description : Option String)
      (estimated_time : Option ℚ)

/-- The fields of the `tasks` row the pipeline inserts. -/
structure TaskRow where
  english_text : String
  description : String
  type : TaskType
  difficulty : Difficulty
  estimated_time : ℚ
  created_by_ai : Bool
  is_starter_task : Bool
deriving DecidableEq, Repr

/-- The user-visible outcome of one generate-task request: a starter-gate
rejection (carrying `nextStarterTask`), a threshold rejection (carrying
`recordings_needed`), or a persisted task (with the `fallback` response
flag). -/
inductive GenResponse
  | starterError (nextStarterTask : Nat)
  | lockedError (recordings_needed : Int)
  | success (task : TaskRow) (fallback : Bool)
deriving DecidableEq, Repr

/-- The starter-task scan: the first task of the ordered starter list that
has no recording by the requesting user. -/
def nextStarter (ctx : GenCtx) : Option StarterTask :=
  ctx.starterTasks.find? (fun t => !(t.recordings.any (fun u => u = ctx.user_id)))

/-- The two gates of the pipeline, run before any content generation: the
starter gate, then (when the language has tasks and `force` is not set) the
2-recording threshold on the progress row. `none` means generation
proceeds. -/
def gateCheck (ctx : GenCtx) : Option GenResponse :=
  match nextStarter ctx with
  | some t => some (.starterError t.id)
  | none =>
    if ctx.taskCount = 0 then none
    else if ctx.force then none
    else
      match ctx.progress with
      | none => some (.lockedError 2)
      | some p =>
        if p.can_generate_next then none
        else some (.lockedError (2 - p.recordings_count))

/-- The `usedTexts` pool: recent texts trimmed and lower-cased. -/
def usedTextsOf (ctx : GenCtx) : List String :=
  ctx.recentTexts.map trimLower

/-- The `usedWords` pool: trimmed recent texts that are non-empty single
words (no space), lower-cased. -/
def usedWordsOf (ctx : GenCtx) : List String :=
  ((ctx.recentTexts.map trimStr).filter
      (fun s => !(s = "") && !(s.data.contains ' '))).map lowerStr

/-- The content-generation and persistence stage, reached once both gates
pass. The three source branches: HTTP failure and parse failure persist a
fallback candidate with `created_by_ai = false`,
`is_starter_task = (taskCount = 0)` and respond with `fallback: true`; an
AI payload is validated (non-empty, not an exact duplicate, natural) and on
failure replaced by a fallback candidate, the insert in both of these cases
carrying no `is_starter_task` field (schema default `false`). -/
def buildTask (ctx : GenCtx) (ai : AiResult) (o : Oracle) : GenResponse :=
  let used := usedTextsOf ctx
  let usedWords := usedWordsOf ctx
  match ai with
  | .httpFail =>
    let c := pickUniqueFallback used usedWords ctx.langName ctx.randomType o
    .success
      { english_text := c.text, description := c.description,
        type := ctx.randomType, difficulty := ctx.randomDifficulty,
        estimated_time := c.estimated, created_by_ai := false,
        is_starter_task := decide (ctx.taskCount = 0) }
      true
  | .parseFail =>
    let c := pickUniqueFallback used usedWords ctx.langName ctx.randomType o
    .success
      { english_text := c.text, description := c.description,
        type := ctx.randomType, difficulty := ctx.randomDifficulty,
        estimated_time := c.estimated, created_by_ai := false,
        is_starter_task := decide (ctx.taskCount = 0) }
      true
  | .ok englishText descr est =>
    let aiEnglishText := trimStr (englishText.getD "")
    let aiDesc := trimStr (descr.getD "")
    let aiEst := est.getD 2
    let invalidAi :=
      decide (aiEnglishText = "") ||
        used.contains (lowerStr aiEnglishText) ||
        !(isNatural aiEnglishText ctx.randomType)
    if invalidAi then
      let c := pickUniqueFallback used usedWords ctx.langName ctx.randomType o
      .success
        { english_text := c.text, description := c.description,
          type := ctx.randomType, difficulty := ctx.randomDifficulty,
          estimated_time := c.estimated, created_by_ai := false,
          is_starter_task := false }
        false
    else
      .success
        { english_text := englishText.getD "",
          description :=
            if aiDesc = "" then "Translate this into " ++ ctx.langName ++ "."
            else aiDesc,
          type := ctx.randomType, difficulty := ctx.randomDifficulty,
          estimated_time := min 5 (max 1 aiEst),
          created_by_ai := true, is_starter_task := false }
        false

/-- One whole generate-task request: gates first, then generation and
persistence. -/
def generateTask (ctx : GenCtx) (ai : AiResult) (o : Oracle) : GenResponse :=
  match gateCheck ctx with
  | some r => r
  | none => buildTask ctx ai o

/-- The post-persistence progress reset (`UPDATE user_task_progress SET
recordings_count = 0, can_generate_next = false WHERE ...`): a no-op when no
row matches. -/
def resetProgressRow (p : Option Progress) : Option Progress :=
  p.map (fun _ => ⟨0, false⟩)

/-! ## Database triggers (`update_user_progress` from migration
20250804132219, `award_referral_points` from migration 20260223164119) and
the `recordings` uniqueness constraint (migration 20250731144540). -/

/-- A `tasks` row restricted to what the trigger reads. -/
structure DbTask where
  id : Nat
  language_id : Nat
  difficulty : Difficulty
deriving DecidableEq, Repr

/-- A `profiles` row restricted to what the trigger writes. -/
structure Profile where
  points : Int
  total_recordings : Int
deriving DecidableEq, Repr

/-- A new `recordings` row as seen by the trigger (`NEW.user_id`,
`NEW.task_id`). -/
structure RecEvent where
  user_id : Nat
  task_id : Nat
deriving DecidableEq, Repr

/-- The database state the trigger touches: the task table, the
`user_task_progress` rows keyed by the unique `(user_id, language_id)` pair,
and the profile of each user (present for every user via the
`handle_new_user` signup trigger). -/
structure TriggerDb where
  tasks : List DbTask
  progress : Nat × Nat → Option Progress
  profiles : Nat → Profile

/-- Points per difficulty, as in the trigger's CASE expression (the schema
CHECK constraint limits `difficulty` to exactly these three values, so the
`ELSE 10` arm is unreachable). -/
def pointsFor : Difficulty → Int
  | .beginner => 10
  | .intermediate => 20
  | .advanced => 30

/-- One execution of the `update_user_progress` trigger function: resolve
the task's language, upsert the `(user, language)` progress row
(`recordings_count = 1, can_generate_next = false` on insert; increment and
recompute the flag on conflict), and award difficulty-scaled points plus one
`total_recordings` to the user's profile — all in the transaction of the
recording insert. A recording whose task does not exist would make the
trigger fail and roll the insert back (and is impossible under the
`task_id` foreign key), modelled as a no-op. Note that the schema registers
this function under TWO AFTER INSERT triggers on `recordings`
(`on_recording_created` from migration 20250731144540 and
`trg_update_user_progress` from migration 20250809125659, which never drops
the first), so one recording insert executes it twice — see
`applyEvent`. -/
def update_user_progress (db : TriggerDb) (r : RecEvent) : TriggerDb :=
  match db.tasks.find? (fun t => t.id == r.task_id) with
  | none => db
  | some tk =>
    { db with
      progress := fun k =>
        if k = (r.user_id, tk.language_id) then
          some
            (match db.progress (r.user_id, tk.language_id) with
             | none => ⟨1, false⟩
             | some p =>
               ⟨p.recordings_count + 1, decide (p.recordings_count + 1 ≥ 2)⟩)
        else db.progress k,
      profiles := fun u =>
        if u = r.user_id then
          ⟨(db.profiles u).points + pointsFor tk.difficulty,
           (db.profiles u).total_recordings + 1⟩
        else db.profiles u }

/-- The generation-side progress reset applied to the whole table (the
`UPDATE ... WHERE user_id = ... AND language_id = ...` run after every
successful task insert). -/
def resetProgressDb (db : TriggerDb) (user lang : Nat) : TriggerDb :=
  { db with
    progress := fun k =>
      if k = (user, lang) then resetProgressRow (db.progress k)
      else db.progress k }

/-- The two events that touch `user_task_progress`. -/
inductive DbEvent
  | recInsert (r : RecEvent)
  | genReset (user lang : Nat)

/-- Apply one event to the database state. A recording insert fires both
AFTER INSERT triggers registered on `recordings` — `on_recording_created`
(migration 20250731144540) and `trg_update_user_progress` (migration
20250809125659) — each executing `update_user_progress`, so the function
runs twice per insert. -/
def applyEvent (db : TriggerDb) : DbEvent → TriggerDb
  | .recInsert r => update_user_progress (update_user_progress db r) r
  | .genReset u l => resetProgressDb db u l

/-- The progress invariant of the spec: every existing row satisfies
`can_generate_next ⇔ recordings_count ≥ 2`. -/
def ProgressInv (db : TriggerDb) : Prop :=
  ∀ k p, db.progress k = some p →
    p.can_generate_next = decide (p.recordings_count ≥ 2)

/-- A stored `recordings` row restricted to the columns of the
`UNIQUE(user_id, task_id)` constraint plus the audio reference. -/
structure RecordingRow where
  user_id : Nat
  task_id : Nat
  audio_url : String
deriving DecidableEq, Repr

/-- Possible insert-time constraint errors. -/
inductive DbError
  | uniqueViolation
  | selfReferral
deriving DecidableEq, Repr

/-- Insert into `recordings` under the schema of migration 20250731144540:
the `UNIQUE(user_id, task_id)` constraint (never dropped by any later
migration) rejects a second row with the same user and task. -/
def insertRecording (recs : List RecordingRow) (r : RecordingRow) :
    Except DbError (List RecordingRow) :=
  if recs.any (fun x => x.user_id == r.user_id && x.task_id == r.task_id) then
    .error .uniqueViolation
  else
    .ok (recs ++ [r])

/-- A `referrals` row. -/
structure ReferralRow where
  referrer_id : Nat
  referred_user_id : Nat
  points_awarded : Bool
deriving DecidableEq, Repr

/-- The state touched by a referral insert: the referral table and the
profile points. -/
structure RefState where
  rows : List ReferralRow
  points : Nat → Int

/-- Insert into `referrals` with the `award_referral_points` BEFORE INSERT
trigger and the UNIQUE constraint on `referred_user_id` of migration
20260223164119. The trigger raises on self-referral (aborting the statement
before any change); a duplicate `referred_user_id` makes the insert fail,
rolling back the trigger's points update, so the net effect of a duplicate
insert is an error and no state change. Otherwise the row is stored; when
its `points_awarded` input (schema default `false`) is not already true, the
trigger adds 50 points to the referrer and sets the flag on the stored
row. -/
def award_referral_points (st : RefState) (referrer referred : Nat)
    (points_awarded : Bool) : Except DbError RefState :=
  if referrer = referred then
    .error .selfReferral
  else if st.rows.any (fun x => x.referred_user_id == referred) then
    .error .uniqueViolation
  else if points_awarded then
    .ok ⟨st.rows ++ [⟨referrer, referred, points_awarded⟩], st.points⟩
  else
    .ok ⟨st.rows ++ [⟨referrer, referred, true⟩],
         fun u => if u = referrer then st.points u + 50 else st.points u⟩

/-- The referrer's points after a referral insert, `none` when the insert
failed. -/
def refPointsAfter (r : Except DbError RefState) (u : Nat) : Option Int :=
  match r with
  | .ok st => some (st.points u)
  | .error _ => none

/-- The `recordings_count` a missing progress row contributes to the
`recordings_needed` report (`progress?.recordings_count || 0`). -/
def recCount : Option Progress → Int
  | none => 0
  | some p => p.recordings_count

/-- A concrete single-task database with no progress rows and zeroed
profiles, used to instantiate the preserved invariant. -/
def dbW : TriggerDb :=
  { tasks := [⟨1, 1, .beginner⟩],
    progress := fun _ => none,
    profiles := fun _ => ⟨0, 0⟩ }

/-- A concrete database for the points award: one advanced task, a user with
3 points and 1 recording so far. -/
def dbW6 : TriggerDb :=
  { tasks := [⟨2, 9, .advanced⟩],
    progress := fun _ => none,
    profiles := fun _ => ⟨3, 1⟩ }

/-- A locked context: all starter tasks recorded by the user, 3 existing
tasks, 1 recording so far in the current cycle. -/
def ctxW2 : GenCtx :=
  { user_id := 5, starterTasks := [⟨1, 1, [5]⟩], taskCount := 3,
    progress := some ⟨1, false⟩, force := false,
    recentTexts := [], langName := "Cherokee",
    randomType := .phrase, randomDifficulty := .beginner }

/-- A context whose second starter task (id 11, sequence 2) has no
recording by user 5, while everything else would allow generation. -/
def ctxW3 : GenCtx :=
  { user_id := 5, starterTasks := [⟨10, 1, [5]⟩, ⟨11, 2, []⟩], taskCount := 40,
    progress := some ⟨2, true⟩, force := true,
    recentTexts := [], langName := "Cherokee",
    randomType := .word, randomDifficulty := .beginner }

/-- A first-ever request: the language has zero tasks, no starter tasks, no
progress row, no recent texts, and `force` is not set. -/
def ctxC4 : GenCtx :=
  { user_id := 5, starterTasks := [], taskCount := 0,
    progress := none, force := false,
    recentTexts := [], langName := "Cherokee",
    randomType := .sentence, randomDifficulty := .advanced }

/-- An unlocked context with one recent task text. -/
def ctxC8 : GenCtx :=
  { user_id := 5, starterTasks := [], taskCount := 3,
    progress := some ⟨2, true⟩, force := false,
    recentTexts := ["I am going to the market tomorrow."], langName := "Cherokee",
    randomType := .sentence, randomDifficulty := .beginner }

/-- An unlocked context with recent text `Hello`. -/
def ctxC8W : GenCtx :=
  { user_id := 5, starterTasks := [], taskCount := 3,
    progress := some ⟨2, true⟩, force := false,
    recentTexts := ["Hello"], langName := "Cherokee",
    randomType := .sentence, randomDifficulty := .beginner }

/-- An unlocked context for generation with requested category `word` and a
recent text making every word-pool candidate a near-duplicate. -/
def ctxC9 : GenCtx :=
  { user_id := 5, starterTasks := [], taskCount := 4,
    progress := some ⟨2, true⟩, force := false,
    recentTexts := ["water!"], langName := "Cherokee",
    randomType := .word, randomDifficulty := .beginner }

/-- An unlocked context requesting a phrase with recent text `Hello`. -/
def ctxW9 : GenCtx :=
  { user_id := 5, starterTasks := [], taskCount := 3,
    progress := some ⟨2, true⟩, force := false,
    recentTexts := ["Hello"], langName := "Cherokee",
    randomType := .phrase, randomDifficulty := .intermediate }

/-! ## Helper lemmas about the character and token machinery -/

example : tokenize "  Hello, World! 42 " = ["hello", "world", "42"] := by decide

example : jaccard "Hello world" "world hello!" = 1 := by decide

example : isTooSimilar ["hello there"] "Hello, THERE!" = true := by decide

example : isTooSimilar ["hello there"] "completely different" = false := by decide

example : isNatural "water" .word = true := by decide

example : isNatural "two words" .word = false := by decide

example : isNatural "How are you?" .phrase = true := by decide

example : isNatural "We will visit the food tomorrow." .sentence = false := by decide

example : isNatural "I am going to the market tomorrow." .sentence = true := by decide

example : isNatural "Hello." .sentence = false := by decide

example :
    (pickUniqueFallback [] [] "Cherokee" .word ⟨List.replicate 12 (0, 0, 0), (0, 0, 0)⟩).text
      = "water" := by decide

example :
    (pickUniqueFallback ["water!"] [] "Cherokee" .word
        ⟨List.replicate 12 (0, 0, 0), (0, 0, 0)⟩).text
      = "How are you?" := by decide


theorem char_le_iff (a b : Char) : a ≤ b ↔ a.toNat ≤ b.toNat := by
  simp [Char.le_def, UInt32.le_def, Char.toNat, UInt32.toNat, BitVec.le_def]

theorem toNat_ofNat_valid (n : Nat) (hv : Nat.isValidChar n) :
    (Char.ofNat n).toNat = n := by
  simp only [Char.ofNat, dif_pos hv, Char.ofNatAux, Char.toNat, UInt32.toNat]
  simp

/-- Lower-casing never yields an upper-case letter. -/
theorem lowerChar_not_upper (c : Char) : ¬('A' ≤ lowerChar c ∧ lowerChar c ≤ 'Z') := by
  by_cases h : 'A' ≤ c ∧ c ≤ 'Z'
  · have h65 : 65 ≤ c.toNat := (char_le_iff 'A' c).mp h.1
    have h90 : c.toNat ≤ 90 := (char_le_iff c 'Z').mp h.2
    have hv : Nat.isValidChar (c.toNat + 32) := Or.inl (by omega)
    have hl : lowerChar c = Char.ofNat (c.toNat + 32) := if_pos h
    intro hcontra
    have hz : ('Z' : Char).toNat = 90 := rfl
    have := (char_le_iff _ 'Z').mp hcontra.2
    rw [hl, toNat_ofNat_valid _ hv, hz] at this
    omega
  · have hl : lowerChar c = c := if_neg h
    rw [hl]
    exact h

theorem lowerChar_idem (c : Char) : lowerChar (lowerChar c) = lowerChar c :=
  if_neg (lowerChar_not_upper c)

/-- Whitespace is untouched by lower-casing. -/
theorem lowerChar_of_space (c : Char) (h : isSpaceCh c = true) : lowerChar c = c := by
  simp only [isSpaceCh, Bool.or_eq_true, decide_eq_true_eq] at h
  rcases h with ((h | h) | h) | h <;> subst h <;> decide

/-- Whitespace survives the `keepCh` filter. -/
theorem keepCh_of_space (c : Char) (h : isSpaceCh c = true) : keepCh c = true := by
  simp [keepCh, h]

/-- An all-whitespace input splits into no tokens, whatever the pending
run. -/
theorem splitAux_all_space (l : List Char) (h : ∀ c ∈ l, isSpaceCh c = true)
    (acc : List Char) :
    splitAux l acc = if acc.isEmpty then [] else [acc.reverse] := by
  induction l generalizing acc with
  | nil => rfl
  | cons c cs ih =>
    have hc : isSpaceCh c = true := h c (List.mem_cons_self c cs)
    have hcs : ∀ d ∈ cs, isSpaceCh d = true := fun d hd => h d (List.mem_cons_of_mem c hd)
    rw [splitAux, if_pos hc]
    by_cases hacc : acc.isEmpty
    · rw [if_pos hacc, if_pos hacc, ih hcs []]
      rfl
    · rw [if_neg hacc, if_neg hacc, ih hcs []]
      rfl

/-- Leading whitespace does not change the token split. -/
theorem splitAux_space_prefix (pre xs : List Char)
    (h : ∀ c ∈ pre, isSpaceCh c = true) :
    splitAux (pre ++ xs) [] = splitAux xs [] := by
  induction pre with
  | nil => rfl
  | cons c cs ih =>
    have hc : isSpaceCh c = true := h c (List.mem_cons_self c cs)
    have hcs : ∀ d ∈ cs, isSpaceCh d = true := fun d hd => h d (List.mem_cons_of_mem c hd)
    rw [List.cons_append, splitAux, if_pos hc]
    simpa using ih hcs

/-- Trailing whitespace does not change the token split. -/
theorem splitAux_space_suffix (xs suf : List Char)
    (h : ∀ c ∈ suf, isSpaceCh c = true) :
    ∀ acc, splitAux (xs ++ suf) acc = splitAux xs acc := by
  induction xs with
  | nil =>
    intro acc
    rw [List.nil_append, splitAux_all_space suf h acc]
    rfl
  | cons c cs ih =>
    intro acc
    rw [List.cons_append, splitAux, splitAux]
    by_cases hc : isSpaceCh c
    · rw [if_pos hc, if_pos hc]
      by_cases hacc : acc.isEmpty
      · rw [if_pos hacc, if_pos hacc, ih []]
      · rw [if_neg hacc, if_neg hacc, ih []]
    · rw [if_neg hc, if_neg hc, ih (c :: acc)]

/-- Lower-casing an already lower-cased string is the identity, so `tokenize`
is invariant under pre-lower-casing. -/
theorem tokenize_lowerStr (s : String) : tokenize (lowerStr s) = tokenize s := by
  unfold tokenize lowerStr
  have hdata : (String.mk (s.data.map lowerChar)).data = s.data.map lowerChar := rfl
  rw [hdata, List.map_map]
  have hmap : s.data.map (lowerChar ∘ lowerChar) = s.data.map lowerChar :=
    List.map_congr_left (fun a _ => by simp [Function.comp, lowerChar_idem])
  rw [hmap]

/-- `trimChars` removes an all-whitespace prefix and suffix. -/
theorem trim_decomp (l : List Char) :
    ∃ pre suf, (∀ c ∈ pre, isSpaceCh c = true) ∧ (∀ c ∈ suf, isSpaceCh c = true) ∧
      l = pre ++ trimChars l ++ suf := by
  refine ⟨l.takeWhile isSpaceCh,
    ((l.dropWhile isSpaceCh).reverse.takeWhile isSpaceCh).reverse, ?_, ?_, ?_⟩
  · exact fun c hc => List.mem_takeWhile_imp hc
  · intro c hc
    rw [List.mem_reverse] at hc
    exact List.mem_takeWhile_imp hc
  · conv_lhs => rw [← List.takeWhile_append_dropWhile isSpaceCh l]
    rw [List.append_assoc]
    congr 1
    conv_lhs =>
      rw [← (l.dropWhile isSpaceCh).reverse_reverse,
        ← List.takeWhile_append_dropWhile isSpaceCh (l.dropWhile isSpaceCh).reverse,
        List.reverse_append]
    rfl

/-- `tokenize` is invariant under trimming. -/
theorem tokenize_trimStr (s : String) : tokenize (trimStr s) = tokenize s := by
  obtain ⟨pre, suf, hpre, hsuf, hdecomp⟩ := trim_decomp s.data
  unfold tokenize
  have hdata : (trimStr s).data = trimChars s.data := rfl
  rw [hdata]
  conv_rhs => rw [hdecomp]
  rw [List.map_append, List.map_append, List.filter_append, List.filter_append]
  have hpremap : pre.map lowerChar = pre := by
    have := List.map_congr_left (l := pre) (f := lowerChar) (g := id)
      (fun a ha => lowerChar_of_space a (hpre a ha))
    simpa using this
  have hsufmap : suf.map lowerChar = suf := by
    have := List.map_congr_left (l := suf) (f := lowerChar) (g := id)
      (fun a ha => lowerChar_of_space a (hsuf a ha))
    simpa using this
  rw [hpremap, hsufmap,
    List.filter_eq_self.mpr (fun a ha => keepCh_of_space a (hpre a ha)),
    List.filter_eq_self.mpr (fun a ha => keepCh_of_space a (hsuf a ha)),
    List.append_assoc,
    splitAux_space_prefix pre _ hpre,
    splitAux_space_suffix _ suf hsuf []]

/-- `tokenize` is invariant under the `trim().toLowerCase()` normalisation. -/
theorem tokenize_trimLower (s : String) : tokenize (trimLower s) = tokenize s := by
  unfold trimLower
  rw [tokenize_lowerStr, tokenize_trimStr]

/-- The Jaccard similarity only depends on the candidate through its token
list. -/
theorem jaccard_congr_left (a a' t : String) (h : tokenize a = tokenize a') :
    jaccard a t = jaccard a' t := by
  unfold jaccard
  rw [h]

/-- Two strings with the same non-empty token list have Jaccard similarity
exactly 1. -/
theorem jaccard_eq_one (a b : String) (hab : tokenize a = tokenize b)
    (hne : tokenize a ≠ []) : jaccard a b = 1 := by
  unfold jaccard
  rw [hab]
  set A := (tokenize b).dedup with hA
  have hnodup : A.Nodup := List.nodup_dedup _
  have hfilter : A.filter (fun x => A.contains x) = A :=
    List.filter_eq_self.mpr (fun x hx => by simp [List.contains, List.elem_iff, hx])
  have huni : ((A ++ A).dedup).length = A.length := by
    have h1 : (A ++ A).toFinset = A.toFinset := by simp [List.toFinset_append]
    have h2 := List.card_toFinset (A ++ A)
    have h3 := List.card_toFinset A
    rw [h1, h3] at h2
    rw [← h2, hnodup.dedup]
  have hlen : A.length ≠ 0 := by
    rw [hab] at hne
    intro h0
    exact hne ((List.dedup_eq_nil (tokenize b)).mp (List.length_eq_zero.mp h0))
  simp only [hfilter, huni, if_neg hlen]
  rw [Rat.mkRat_eq_div]
  push_cast
  exact div_self (by exact_mod_cast hlen)

/-! ## Claim theorems -/

/-- C1: for every (user, language) progress row, `can_generate_next` is true
iff `recordings_count ≥ 2`, and this equivalence is preserved by every
recording insert (which executes the `update_user_progress` trigger function
twice, once per registered trigger; each execution inserts the row with
`recordings_count = 1, can_generate_next = false` or increments the count
and recomputes the flag, so the equivalence is re-established either way)
and by every successful task generation (which resets the row to
`0, false`). -/
theorem progress_invariant_preserved (db : TriggerDb) (e : DbEvent)
    (h : ProgressInv db) : ProgressInv (applyEvent db e) := by
  have hstep : ∀ (db' : TriggerDb) (r : RecEvent), ProgressInv db' →
      ProgressInv (update_user_progress db' r) := by
    intro db' r h'
    unfold update_user_progress
    cases hf : db'.tasks.find? (fun t => t.id == r.task_id) with
    | none => exact h'
    | some tk =>
      intro k p hp
      simp only at hp
      by_cases hk : k = (r.user_id, tk.language_id)
      · rw [if_pos hk] at hp
        cases hold : db'.progress (r.user_id, tk.language_id) with
        | none =>
          rw [hold] at hp
          cases hp
          rfl
        | some q =>
          rw [hold] at hp
          cases hp
          rfl
      · rw [if_neg hk] at hp
        exact h' k p hp
  cases e with
  | recInsert r =>
    show ProgressInv (update_user_progress (update_user_progress db r) r)
    exact hstep _ r (hstep _ r h)
  | genReset u l =>
    show ProgressInv (resetProgressDb db u l)
    intro k p hp
    simp only [resetProgressDb] at hp
    by_cases hk : k = (u, l)
    · rw [if_pos hk] at hp
      cases hq : db.progress k with
      | none => rw [hq] at hp; cases hp
      | some q =>
        rw [hq] at hp
        cases hp
        rfl
    · rw [if_neg hk] at hp
      exact h k p hp

theorem progress_invariant_preserved_witness :
    ProgressInv dbW ∧ ProgressInv (applyEvent dbW (.recInsert ⟨7, 1⟩)) :=
  ⟨fun _ _ hp => Option.noConfusion hp,
   progress_invariant_preserved dbW (.recInsert ⟨7, 1⟩)
     (fun _ _ hp => Option.noConfusion hp)⟩

/-- One firing of the `update_user_progress` trigger function awards the
recording user 10, 20 or 30 profile points according to the task's
difficulty, increments `total_recordings` by 1, and performs the
progress-row upsert in the same transaction. This describes a single
execution of the function; a real recording insert runs it twice (see
`applyEvent` and the double-award theorem below). -/
theorem recording_awards_points (db : TriggerDb) (r : RecEvent) (tk : DbTask)
    (hfind : db.tasks.find? (fun t => t.id == r.task_id) = some tk) :
    ((update_user_progress db r).profiles r.user_id).points
        = (db.profiles r.user_id).points + pointsFor tk.difficulty ∧
    ((update_user_progress db r).profiles r.user_id).total_recordings
        = (db.profiles r.user_id).total_recordings + 1 ∧
    (update_user_progress db r).progress (r.user_id, tk.language_id)
        = some
            (match db.progress (r.user_id, tk.language_id) with
             | none => ⟨1, false⟩
             | some p =>
               ⟨p.recordings_count + 1, decide (p.recordings_count + 1 ≥ 2)⟩) ∧
    pointsFor .beginner = 10 ∧ pointsFor .intermediate = 20 ∧
      pointsFor .advanced = 30 := by
  unfold update_user_progress
  rw [hfind]
  refine ⟨by simp, by simp, by simp, rfl, rfl, rfl⟩

theorem recording_awards_points_witness :
    ((update_user_progress dbW6 ⟨4, 2⟩).profiles 4).points = 3 + 30 ∧
    ((update_user_progress dbW6 ⟨4, 2⟩).profiles 4).total_recordings = 1 + 1 := by
  have h := recording_awards_points dbW6 ⟨4, 2⟩ ⟨2, 9, .advanced⟩ (by decide)
  exact ⟨h.1, h.2.1⟩

/-- C6 (code bug): migrations 20250731144540 and 20250809125659 leave TWO
AFTER INSERT triggers on `recordings` (`on_recording_created` and
`trg_update_user_progress`), both executing `update_user_progress`, so one
recording insert runs the function twice. For user 4 (3 points, 1 prior
recording) inserting a recording for advanced task 2: points become
3 + 60 (not 3 + 30), `total_recordings` becomes 1 + 2 (not 1 + 1), and the
fresh progress row immediately reads `recordings_count = 2,
can_generate_next = true` — one recording unlocks the next task instead of
the intended two. -/
theorem recording_insert_double_award :
    ((applyEvent dbW6 (.recInsert ⟨4, 2⟩)).profiles 4).points = 3 + 60 ∧
    ((applyEvent dbW6 (.recInsert ⟨4, 2⟩)).profiles 4).total_recordings = 1 + 2 ∧
    (applyEvent dbW6 (.recInsert ⟨4, 2⟩)).progress (4, 9) = some ⟨2, true⟩ := by
  refine ⟨by decide, by decide, by decide⟩

/-- C5 (code bug): the `UNIQUE(user_id, task_id)` constraint of the
`recordings` table, created by migration 20250731144540 and never dropped,
makes a second recording insert by the same user for the same task fail with
a uniqueness violation — although the recording UI (Chat.tsx numbers
multiple recordings per task) and the 2-recordings-per-cycle flow expect it
to succeed. -/
theorem second_recording_insert_fails :
    insertRecording [⟨1, 7, "1/7/a.webm"⟩] ⟨1, 7, "1/7/b.webm"⟩
      = .error .uniqueViolation := rfl

/-- C7 counterexample: a referral insert whose row presets
`points_awarded = true` (permitted by the schema and by the
insert RLS policy) succeeds without awarding the referrer any points: with
all profiles at 0 points, after `award_referral_points` for referrer 1 and
referred user 2 with the flag preset, referrer 1 still has 0 points, not
50. -/
theorem referral_preset_flag_no_award :
    refPointsAfter (award_referral_points ⟨[], fun _ => 0⟩ 1 2 true) 1
      = some 0 := rfl

/-- C7 (amended): self-referrals are rejected with an error and no state
change (whatever the flag input); a duplicate `referred_user_id` insert
fails on the uniqueness constraint; and an insert with `points_awarded`
false (its schema default, the only value the application ever supplies)
stores the row with the flag set true, adds exactly 50 points to the
referrer, changes no other profile, and preserves at-most-one-row-per-
referred-user. -/
theorem award_referral_points_spec (st : RefState) (a b : Nat) :
    (∀ pa, a = b → award_referral_points st a b pa = .error .selfReferral) ∧
    (a ≠ b → st.rows.any (fun x => x.referred_user_id == b) = true →
      award_referral_points st a b false = .error .uniqueViolation) ∧
    (a ≠ b → st.rows.any (fun x => x.referred_user_id == b) = false →
      ∃ st', award_referral_points st a b false = .ok st' ∧
        st'.points a = st.points a + 50 ∧
        (∀ u, u ≠ a → st'.points u = st.points u) ∧
        st'.rows = st.rows ++ [⟨a, b, true⟩] ∧
        (st.rows.Pairwise (fun x y => x.referred_user_id ≠ y.referred_user_id) →
          st'.rows.Pairwise
            (fun x y => x.referred_user_id ≠ y.referred_user_id))) := by
  refine ⟨?_, ?_, ?_⟩
  · intro pa hab
    unfold award_referral_points
    rw [if_pos hab]
  · intro hab hdup
    unfold award_referral_points
    rw [if_neg hab, if_pos hdup]
  · intro hab hdup
    refine ⟨⟨st.rows ++ [⟨a, b, true⟩],
      fun u => if u = a then st.points u + 50 else st.points u⟩, ?_, ?_, ?_, rfl, ?_⟩
    · unfold award_referral_points
      rw [if_neg hab, if_neg (by simp [hdup]), if_neg (by simp)]
    · simp
    · intro u hu
      simp [hu]
    · intro hpw
      rw [List.pairwise_append]
      refine ⟨hpw, List.pairwise_singleton _ _, ?_⟩
      intro x hx y hy
      rw [List.mem_singleton] at hy
      subst hy
      have := List.any_eq_false.mp hdup x hx
      simpa using this

theorem award_referral_points_spec_witness :
    refPointsAfter (award_referral_points ⟨[], fun _ => 0⟩ 1 2 false) 1 = some 50 ∧
    award_referral_points ⟨[], fun _ => 0⟩ 3 3 false = .error .selfReferral := by
  constructor
  · obtain ⟨st', h1, h2, -⟩ :=
      (award_referral_points_spec ⟨[], fun _ => 0⟩ 1 2).2.2 (by decide) rfl
    simp [refPointsAfter, h1, h2]
  · exact (award_referral_points_spec ⟨[], fun _ => 0⟩ 3 3).1 false rfl

/-- Every branch of the content-generation stage persists a task. -/
theorem buildTask_isSuccess (ctx : GenCtx) (ai : AiResult) (o : Oracle) :
    ∃ row fb, buildTask ctx ai o = .success row fb := by
  cases ai with
  | httpFail => exact ⟨_, _, rfl⟩
  | parseFail => exact ⟨_, _, rfl⟩
  | ok e d q =>
    unfold buildTask
    dsimp only
    by_cases h :
      (decide (trimStr (e.getD "") = "") ||
        (usedTextsOf ctx).contains (lowerStr (trimStr (e.getD ""))) ||
        !(isNatural (trimStr (e.getD "")) ctx.randomType)) = true
    · rw [if_pos h]
      exact ⟨_, _, rfl⟩
    · rw [if_neg h]
      exact ⟨_, _, rfl⟩

/-- C2: when the language has tasks, every starter task has a recording by
the user, and the user's progress row is locked (`can_generate_next` false,
or no row at all), a generation request without `force` is rejected with
`recordings_needed = 2 - recordings_count` (2 when no row exists) and no
task is created, while a request with `force` skips the threshold and
persists a task. -/
theorem locked_gate_spec (ctx : GenCtx) (ai : AiResult) (o : Oracle)
    (hstarter : ∀ t ∈ ctx.starterTasks,
      t.recordings.any (fun u => u = ctx.user_id) = true)
    (htasks : ctx.taskCount ≠ 0)
    (hlocked : ∀ p, ctx.progress = some p → p.can_generate_next = false) :
    (ctx.force = false →
      generateTask ctx ai o = .lockedError (2 - recCount ctx.progress)) ∧
    (ctx.force = true → ∃ row fb, generateTask ctx ai o = .success row fb) := by
  have hns : nextStarter ctx = none := by
    rw [nextStarter, List.find?_eq_none]
    intro t ht
    simp [hstarter t ht]
  constructor
  · intro hforce
    unfold generateTask gateCheck
    rw [hns]
    simp only [if_neg htasks, hforce, if_neg (by decide : ¬(false = true))]
    cases hp : ctx.progress with
    | none => rfl
    | some p => simp [hlocked p hp, recCount]
  · intro hforce
    obtain ⟨row, fb, hrow⟩ := buildTask_isSuccess ctx ai o
    refine ⟨row, fb, ?_⟩
    unfold generateTask gateCheck
    rw [hns]
    simp only [if_neg htasks, hforce, if_pos rfl]
    exact hrow

theorem locked_gate_spec_witness :
    generateTask ctxW2 .httpFail ⟨[], (0, 0, 0)⟩ = .lockedError 1 :=
  (locked_gate_spec ctxW2 .httpFail ⟨[], (0, 0, 0)⟩
      (by decide) (by decide) (fun p hp => by cases hp; rfl)).1 rfl

/-- On a list sorted by `seq`, `find?` returns an element whose `seq` is a
lower bound for every element satisfying the predicate. -/
theorem find?_min_seq {p : StarterTask → Bool} {l : List StarterTask}
    {t : StarterTask} (hs : l.Pairwise (fun a b => a.seq ≤ b.seq))
    (h : l.find? p = some t) :
    ∀ u ∈ l, p u = true → t.seq ≤ u.seq := by
  induction l with
  | nil => cases h
  | cons x xs ih =>
    rw [List.find?] at h
    rw [List.pairwise_cons] at hs
    cases hx : p x with
    | true =>
      rw [hx] at h
      cases h
      intro u hu _
      rcases List.mem_cons.mp hu with rfl | hu
      · exact le_refl _
      · exact hs.1 u hu
    | false =>
      rw [hx] at h
      intro u hu hpu
      rcases List.mem_cons.mp hu with rfl | hu
      · rw [hx] at hpu
        cases hpu
      · exact ih hs.2 h u hu hpu

/-- C3: when the starter list (ordered by `sequence_order`, as the query
returns it) contains a task with no recording by the requesting user, every
generation request is refused with a `starterError` naming the incomplete
starter task of lowest `sequence_order` — no task is created, regardless of
`force`, of the progress row, and of the AI outcome. -/
theorem starter_gate_spec (ctx : GenCtx) (ai : AiResult) (o : Oracle)
    (hsorted : ctx.starterTasks.Pairwise (fun a b => a.seq ≤ b.seq))
    (hsome : ∃ t ∈ ctx.starterTasks,
      t.recordings.any (fun u => u = ctx.user_id) = false) :
    ∃ t, nextStarter ctx = some t ∧
      generateTask ctx ai o = .starterError t.id ∧
      t ∈ ctx.starterTasks ∧
      t.recordings.any (fun u => u = ctx.user_id) = false ∧
      ∀ u ∈ ctx.starterTasks,
        u.recordings.any (fun v => v = ctx.user_id) = false → t.seq ≤ u.seq := by
  obtain ⟨w, hw, hwrec⟩ := hsome
  cases hfind : nextStarter ctx with
  | none =>
    rw [nextStarter, List.find?_eq_none] at hfind
    have := hfind w hw
    simp [hwrec] at this
  | some t =>
    refine ⟨t, rfl, ?_, ?_, ?_, ?_⟩
    · unfold generateTask gateCheck
      rw [hfind]
    · exact List.mem_of_find?_eq_some hfind
    · have := List.find?_some hfind
      simpa using this
    · intro u hu hurec
      exact find?_min_seq hsorted hfind u hu (by simp [hurec])

theorem starter_gate_spec_witness :
    generateTask ctxW3 .parseFail ⟨[], (1, 1, 1)⟩ = .starterError 11 := by
  obtain ⟨t, hfind, hgen, -⟩ :=
    starter_gate_spec ctxW3 .parseFail ⟨[], (1, 1, 1)⟩ (by decide) (by decide)
  rw [show nextStarter ctxW3 = some ⟨11, 2, []⟩ from rfl] at hfind
  cases hfind
  exact hgen

/-- C4 (code bug): on a language with zero tasks generation indeed proceeds
unconditionally, but on the AI-success path the inserted row is **not**
marked as a starter task (the insert at generate-task/index.ts:484 carries
no `is_starter_task` field, so the schema default `false` applies), while
the fallback insert paths mark it (`is_starter_task: !taskCount ||
taskCount === 0`) — contradicting the spec and the code's own comment
`If no tasks exist, create a starter task`. -/
theorem ai_path_not_marked_starter :
    generateTask ctxC4
        (.ok (some "I am going to the market tomorrow.") (some "Say it.") (some 3))
        ⟨List.replicate 12 (0, 0, 0), (0, 0, 0)⟩
      = .success
          ⟨"I am going to the market tomorrow.", "Say it.",
           .sentence, .advanced, 3, true, false⟩
          false ∧
    generateTask ctxC4 .httpFail ⟨List.replicate 12 (0, 0, 0), (0, 0, 0)⟩
      = .success
          ⟨"I am going to the market this morning.",
           "Translate this practical sentence into Cherokee.",
           .sentence, .advanced, 3, false, true⟩
          true := by
  constructor
  · decide
  · decide

/-- C8 counterexample: the AI candidate `I am going to the market
tomorrow!` differs from the recent text `I am going to the market
tomorrow.` only in final punctuation, so it is no exact trim/casefold match
and is accepted and persisted with `created_by_ai = true` — yet its
token-set Jaccard similarity against that used text is 1 ≥ 0.8, so it does
not pass the deduplication filter `isTooSimilar`. -/
theorem ai_accept_skips_jaccard :
    generateTask ctxC8
        (.ok (some "I am going to the market tomorrow!") (some "Say it.") (some 2))
        ⟨List.replicate 12 (0, 0, 0), (0, 0, 0)⟩
      = .success
          ⟨"I am going to the market tomorrow!", "Say it.",
           .sentence, .beginner, 2, true, false⟩
          false ∧
    isTooSimilar (usedTextsOf ctxC8) "I am going to the market tomorrow!"
      = true := by
  constructor
  · decide
  · decide

/-- The gates alone never produce a persisted task. -/
theorem gateCheck_ne_success (ctx : GenCtx) (row : TaskRow) (fb : Bool)
    (h : gateCheck ctx = some (.success row fb)) : False := by
  unfold gateCheck at h
  cases hns : nextStarter ctx with
  | some t =>
    rw [hns] at h
    cases h
  | none =>
    rw [hns] at h
    by_cases h0 : ctx.taskCount = 0
    · rw [if_pos h0] at h
      cases h
    · rw [if_neg h0] at h
      by_cases hf : ctx.force = true
      · rw [if_pos hf] at h
        cases h
      · rw [if_neg hf] at h
        cases hp : ctx.progress with
        | none =>
          rw [hp] at h
          cases h
        | some p =>
          rw [hp] at h
          dsimp only at h
          by_cases hc : p.can_generate_next = true
          · rw [if_pos hc] at h
            cases h
          · rw [if_neg hc] at h
            cases h

/-- C8 (amended): a persisted task with `created_by_ai = true` (the
AI-success path) is guaranteed non-empty, natural for the requested
category, and **no exact trim/casefold duplicate** of any used text — but
only the exact-match part of the deduplication filter is applied to AI
output; the Jaccard near-duplicate check guards only the fallback
generator. -/
theorem ai_accept_no_exact_duplicate (ctx : GenCtx) (e d : Option String)
    (q : Option ℚ) (o : Oracle) (row : TaskRow) (fb : Bool)
    (h : generateTask ctx (.ok e d q) o = .success row fb)
    (hai : row.created_by_ai = true) :
    (usedTextsOf ctx).contains (trimLower row.english_text) = false ∧
    isNatural (trimStr row.english_text) ctx.randomType = true ∧
    trimStr row.english_text ≠ "" := by
  unfold generateTask at h
  cases hg : gateCheck ctx with
  | some r =>
    rw [hg] at h
    cases h
    exact absurd hg (fun hg' => gateCheck_ne_success ctx row fb hg')
  | none =>
    rw [hg] at h
    unfold buildTask at h
    dsimp only at h
    by_cases hinv :
      (decide (trimStr (e.getD "") = "") ||
        (usedTextsOf ctx).contains (lowerStr (trimStr (e.getD ""))) ||
        !(isNatural (trimStr (e.getD "")) ctx.randomType)) = true
    · rw [if_pos hinv] at h
      cases h
      cases hai
    · rw [if_neg hinv] at h
      cases h
      rw [Bool.or_eq_true, Bool.or_eq_true] at hinv
      push_neg at hinv
      obtain ⟨⟨he, hcont⟩, hnat⟩ := hinv
      refine ⟨by simpa using hcont, by simpa using hnat, ?_⟩
      intro hcontra
      exact he (by simp [hcontra])

theorem ai_accept_no_exact_duplicate_witness :
    (usedTextsOf ctxC8W).contains (trimLower "I am fine today, thank you.") = false ∧
    isNatural (trimStr "I am fine today, thank you.") TaskType.sentence = true ∧
    trimStr "I am fine today, thank you." ≠ "" := by
  have h := ai_accept_no_exact_duplicate ctxC8W
    (some "I am fine today, thank you.") (some "Say it.") (some 2) ⟨[], (0, 0, 0)⟩
    ⟨"I am fine today, thank you.", "Say it.", .sentence, .beginner, 2, true, false⟩
    false (by decide) rfl
  exact h

/-- An element picked at an index reduced modulo the length is a member. -/
theorem getD_mod_mem {α : Type} (l : List α) (d : α) (i : Nat) (h : l ≠ []) :
    l.getD (i % l.length) d ∈ l := by
  have hlen : 0 < l.length := List.length_pos.mpr h
  have hlt : i % l.length < l.length := Nat.mod_lt i hlen
  rw [List.getD_eq_getElem l d hlt]
  exact List.getElem_mem hlt

/-- A phrase-mode fallback candidate always comes from the phrase pool. -/
theorem makeFallback_phrase_text_mem (used uw : List String) (lang : String)
    (ch : Choice) :
    (makeFallbackCandidate used uw lang .phrase ch).text ∈ fallbackPhrases := by
  unfold makeFallbackCandidate
  dsimp only
  by_cases hp : (fallbackPhrases.filter (fun p => !(isTooSimilar used p))).isEmpty = true
  · rw [if_pos hp]
    exact getD_mod_mem _ _ _ (by decide)
  · rw [if_neg hp]
    refine List.mem_of_mem_filter (getD_mod_mem _ _ _ ?_)
    intro hnil
    rw [hnil] at hp
    exact hp rfl

/-- Every result of the fallback retry loop either passes both the
deduplication filter and the naturalness check for the requested category,
or is the safety-net phrase (a phrase-pool entry or the hard-coded
thank-you) produced after all tries failed. -/
theorem pickLoop_spec (used uw : List String) (lang : String) (ty : TaskType)
    (final : Choice) (tries : List Choice) :
    (isTooSimilar used (pickLoop used uw lang ty final tries).text = false ∧
      isNatural (pickLoop used uw lang ty final tries).text ty = true) ∨
    (isNatural (pickLoop used uw lang ty final tries).text .phrase = true ∧
      ((pickLoop used uw lang ty final tries).text ∈ fallbackPhrases ∨
        (pickLoop used uw lang ty final tries).text = "Thank you very much.")) := by
  induction tries with
  | nil =>
    unfold pickLoop
    by_cases hn :
      isNatural (makeFallbackCandidate used uw lang .phrase final).text .phrase = true
    · rw [if_pos hn]
      exact Or.inr ⟨hn, Or.inl (makeFallback_phrase_text_mem used uw lang final)⟩
    · rw [if_neg hn]
      have hthanks : isNatural "Thank you very much." TaskType.phrase = true := by decide
      exact Or.inr ⟨hthanks, Or.inr rfl⟩
  | cons ch rest ih =>
    unfold pickLoop
    by_cases hc :
      (!(isTooSimilar used (makeFallbackCandidate used uw lang ty ch).text) &&
        isNatural (makeFallbackCandidate used uw lang ty ch).text ty) = true
    · rw [if_pos hc]
      rw [Bool.and_eq_true, Bool.not_eq_true'] at hc
      exact Or.inl ⟨hc.1, hc.2⟩
    · rw [if_neg hc]
      exact ih

/-- C9 counterexample: with the recent text `water!` and random draws that
always pick the first pool word `water` (Jaccard 1 against `water!`), all 12
fallback tries fail and the safety net returns the phrase `How are you?`,
which is persisted for the request of category `word` — the fallback
candidate is not of the requested category. -/
theorem fallback_category_counterexample :
    generateTask ctxC9 .httpFail ⟨List.replicate 12 (0, 0, 0), (0, 0, 0)⟩
      = .success
          ⟨"How are you?", "Translate this everyday expression into Cherokee.",
           .word, .beginner, 2, false, false⟩
          true ∧
    isNatural "How are you?" .word = false := by
  exact ⟨by decide, by decide⟩

/-- C9 (amended): when the gates pass and the AI call fails with HTTP
non-OK or an unparsable body, the request still succeeds — a fallback task
is persisted with `created_by_ai = false` and the response carries only the
`fallback` flag, no error. The persisted candidate either passes the
deduplication filter (hence differs, after trim/casefold, from every recent
text, in particular the 5 most recent) and is natural for the requested
category, or — when all 12 tries fail — is a safety-net phrase that may
belong to a different category and may repeat a recent text. -/
theorem fallback_path_spec (ctx : GenCtx) (ai : AiResult) (o : Oracle)
    (hg : gateCheck ctx = none)
    (hai : ai = .httpFail ∨ ai = .parseFail) :
    ∃ c : Candidate,
      c = pickUniqueFallback (usedTextsOf ctx) (usedWordsOf ctx)
            ctx.langName ctx.randomType o ∧
      generateTask ctx ai o
        = .success
            ⟨c.text, c.description, ctx.randomType, ctx.randomDifficulty,
             c.estimated, false, decide (ctx.taskCount = 0)⟩
            true ∧
      ((isTooSimilar (usedTextsOf ctx) c.text = false ∧
          isNatural c.text ctx.randomType = true) ∨
        (isNatural c.text .phrase = true ∧
          (c.text ∈ fallbackPhrases ∨ c.text = "Thank you very much."))) ∧
      (isTooSimilar (usedTextsOf ctx) c.text = false →
        ∀ t ∈ ctx.recentTexts.take 5, trimLower c.text ≠ trimLower t) := by
  have hmain : ∀ t ∈ ctx.recentTexts.take 5,
      isTooSimilar (usedTextsOf ctx)
          (pickUniqueFallback (usedTextsOf ctx) (usedWordsOf ctx)
            ctx.langName ctx.randomType o).text = false →
      trimLower (pickUniqueFallback (usedTextsOf ctx) (usedWordsOf ctx)
          ctx.langName ctx.randomType o).text ≠ trimLower t := by
    intro t ht hsim heq
    have hcont := (Bool.or_eq_false_iff.mp hsim).1
    have hmem : trimLower (pickUniqueFallback (usedTextsOf ctx) (usedWordsOf ctx)
        ctx.langName ctx.randomType o).text ∈ usedTextsOf ctx := by
      rw [heq]
      exact List.mem_map_of_mem trimLower (List.mem_of_mem_take ht)
    rw [show (usedTextsOf ctx).contains (trimLower
        (pickUniqueFallback (usedTextsOf ctx) (usedWordsOf ctx)
          ctx.langName ctx.randomType o).text) = true by
        simpa [List.contains, List.elem_iff] using hmem] at hcont
    cases hcont
  rcases hai with rfl | rfl
  · refine ⟨_, rfl, ?_, ?_, ?_⟩
    · unfold generateTask
      rw [hg]
      rfl
    · exact pickLoop_spec _ _ _ _ _ _
    · intro hsim t ht
      exact hmain t ht hsim
  · refine ⟨_, rfl, ?_, ?_, ?_⟩
    · unfold generateTask
      rw [hg]
      rfl
    · exact pickLoop_spec _ _ _ _ _ _
    · intro hsim t ht
      exact hmain t ht hsim

theorem fallback_path_spec_witness :
    generateTask ctxW9 .httpFail ⟨List.replicate 12 (0, 0, 0), (0, 0, 0)⟩
      = .success
          ⟨"How are you?", "Translate this everyday expression into Cherokee.",
           .phrase, .intermediate, 2, false, false⟩
          true := by
  obtain ⟨c, hc, hgen, -, -⟩ :=
    fallback_path_spec ctxW9 .httpFail ⟨List.replicate 12 (0, 0, 0), (0, 0, 0)⟩
      rfl (Or.inl rfl)
  rw [show pickUniqueFallback (usedTextsOf ctxW9) (usedWordsOf ctxW9)
        ctxW9.langName ctxW9.randomType ⟨List.replicate 12 (0, 0, 0), (0, 0, 0)⟩
      = ⟨"How are you?", "Translate this everyday expression into Cherokee.", 2⟩
      from by decide] at hc
  subst hc
  exact hgen

/-- C10 counterexample: `!!!` and `???` have identical (empty) token lists,
yet against the pool `["!!!"]` the filter rejects `!!!` (exact match) and
accepts `???` (the Jaccard of two empty token sets is 0, not 1), so the
filter verdict is not invariant under tokenisation-preserving changes, and a
candidate whose token set equals a used text's is not always rejected. -/
theorem dedup_not_tokenize_invariant :
    tokenize "!!!" = tokenize "???" ∧
    isTooSimilar ["!!!"] "!!!" = true ∧
    isTooSimilar ["!!!"] "???" = false := by
  refine ⟨by decide, by decide, by decide⟩

/-- C10 (amended): for candidates with a **non-empty** token list, the
filter's verdict depends only on the token list: two candidates with the
same non-empty tokens get the same verdict against every pool, and a
candidate whose token list equals that of some pool entry is always
rejected (Jaccard 1). The invariance fails only for candidates whose token
list is empty. -/
theorem isTooSimilar_tokenize_invariant (c c' : String) (U : List String)
    (htok : tokenize c = tokenize c') (hne : tokenize c ≠ []) :
    isTooSimilar U c = isTooSimilar U c' ∧
    (∀ t ∈ U, tokenize c = tokenize t → isTooSimilar U c = true) := by
  have hjac : ∀ t, jaccard c t = jaccard c' t := fun t => jaccard_congr_left c c' t htok
  have hany : (U.any (fun t => decide (mkRat 4 5 ≤ jaccard c t)))
      = (U.any (fun t => decide (mkRat 4 5 ≤ jaccard c' t))) := by
    simp only [hjac]
  have hreject : ∀ x y : String, tokenize x = tokenize c →
      tokenize y = tokenize c → trimLower y ∈ U → isTooSimilar U x = true := by
    intro x y hx hy hmem
    have h1 : jaccard x (trimLower y) = 1 := by
      apply jaccard_eq_one
      · rw [tokenize_trimLower y, hx, hy]
      · rw [hx]; exact hne
    unfold isTooSimilar
    rw [Bool.or_eq_true]
    right
    rw [List.any_eq_true]
    refine ⟨trimLower y, hmem, ?_⟩
    rw [h1]
    decide
  constructor
  · cases hc1 : U.contains (trimLower c) with
    | true =>
      have hsim : isTooSimilar U c = true := by
        unfold isTooSimilar
        rw [hc1]
        rfl
      have hsim' : isTooSimilar U c' = true := by
        apply hreject c' c htok.symm rfl
        simpa [List.contains, List.elem_iff] using hc1
      rw [hsim, hsim']
    | false =>
      cases hc2 : U.contains (trimLower c') with
      | true =>
        have hsim' : isTooSimilar U c' = true := by
          unfold isTooSimilar
          rw [hc2]
          rfl
        have hsim : isTooSimilar U c = true := by
          apply hreject c c' rfl htok.symm
          simpa [List.contains, List.elem_iff] using hc2
        rw [hsim, hsim']
      | false =>
        unfold isTooSimilar
        rw [hc1, hc2, hany]
  · intro t ht htc
    unfold isTooSimilar
    rw [Bool.or_eq_true]
    right
    rw [List.any_eq_true]
    refine ⟨t, ht, ?_⟩
    have : jaccard c t = 1 := jaccard_eq_one c t htc hne
    rw [this]
    decide

theorem isTooSimilar_tokenize_invariant_witness :
    tokenize "Hello, world" = tokenize "HELLO world!" ∧
    tokenize "Hello, world" ≠ [] ∧
    isTooSimilar ["extra text here"] "Hello, world"
      = isTooSimilar ["extra text here"] "HELLO world!" ∧
    isTooSimilar ["hello world"] "Hello, world" = true := by
  refine ⟨by decide, by decide, ?_, ?_⟩
  · exact (isTooSimilar_tokenize_invariant "Hello, world" "HELLO world!"
      ["extra text here"] (by decide) (by decide)).1
  · exact (isTooSimilar_tokenize_invariant "Hello, world" "HELLO world!"
      ["hello world"] (by decide) (by decide)).2 "hello world"
      (List.mem_singleton_self _) (by decide)
